import Mathlib

/-!
Verification of the OG tag validation & site-audit engine.

Shallow embedding of `src/validate.ts`, `src/audit.ts` and the CLI `init`
command. Conventions used throughout:

* JS `number` arithmetic is modelled exactly in `ℚ` (all values arising in the
  scoring pipeline are small dyadic rationals, exact in doubles);
  `Math.round x` is `⌊x + 1/2⌋` (round half toward +∞), which is Mathlib's
  `round` on `ℚ`.
* Network effects (`fetch`) and the platform URL parser (`new URL`) are passed
  in as explicit oracle functions; a failed fetch (network rejection or a
  thrown `HTTP <status>` error) is an `Except.error` carrying the error
  message string.
* A `Uint8Array` is a `ByteData`: a size plus an index function returning
  `none` out of bounds (JS `undefined`); in JS bit arithmetic `undefined`
  coerces to `0`, in equality comparisons it differs from every number.
* JS string `.length` is modelled by `String.length` (identical on the ASCII
  data the checks measure).
-/

namespace OG

/-- Check status from `validate.ts`: `'pass' | 'warn' | 'fail'`. -/
inductive CheckStatus where
  | pass
  | warn
  | fail
deriving DecidableEq, Repr

/-- A check's optional `value` field: JS `string | number`. -/
inductive CheckValue where
  | str (s : String)
  | num (n : Int)
deriving DecidableEq, Repr

/-- `ValidationCheck` from `validate.ts:8-14`. -/
structure ValidationCheck where
  name : String
  status : CheckStatus
  message : String
  value : Option CheckValue := none
  recommendation : Option String := none
deriving DecidableEq, Repr

/-- `ValidationResult` from `validate.ts:1-6`. The `score` field is a JS
    number-or-NaN: `none` is NaN (or another non-finite value), `some n` a
    finite number. -/
structure ValidationResult where
  url : String
  score : Option Int
  maxScore : Int
  checks : List ValidationCheck
deriving DecidableEq, Repr

/-- The property names of `Object.prototype`: on a plain object literal such
    as the `weights` table, bracket lookup with one of these names finds the
    inherited member (a truthy non-number — a function, or `Object.prototype`
    itself for `__proto__`) instead of `undefined`. -/
def protoNames : List String :=
  ["constructor", "hasOwnProperty", "isPrototypeOf", "propertyIsEnumerable",
   "toLocaleString", "toString", "valueOf", "__proto__", "__defineGetter__",
   "__defineSetter__", "__lookupGetter__", "__lookupSetter__"]

def isProtoName (n : String) : Bool := protoNames.contains n

/-- JS `+` on number-or-NaN values (`none` is NaN, absorbing). -/
def nanAdd (a b : Option ℚ) : Option ℚ :=
  match a, b with
  | some x, some y => some (x + y)
  | _, _ => none

/-- JS `*` on number-or-NaN values. -/
def nanMul (a b : Option ℚ) : Option ℚ :=
  match a, b with
  | some x, some y => some (x * y)
  | _, _ => none

/-- JS `/` on number-or-NaN values: `0/0` is NaN; a nonzero numerator over
    zero would be ±Infinity, collapsed into the same non-finite marker (it is
    unreachable from the uses below, whose divisors are either NaN, zero with
    a zero numerator, or at least 1). -/
def nanDiv (a b : Option ℚ) : Option ℚ :=
  match a, b with
  | some x, some y => if y = 0 then none else some (x / y)
  | _, _ => none

/-- `weights[check.name] || 5` (`validate.ts:481-498`) as the number the
    subsequent arithmetic sees: an own entry of the table is a number; for a
    name of an inherited `Object.prototype` member the lookup yields that
    truthy non-number, which `|| 5` keeps and which `+` and `*` then coerce
    to NaN (`none`); any other name gives `undefined`, which `|| 5` replaces
    with 5. -/
def weightOf (name : String) : Option ℚ :=
  if name = "og:title" then some 15
  else if name = "og:description" then some 15
  else if name = "og:image" then some 20
  else if name = "og:image URL" then some 5
  else if name = "og:image accessible" then some 15
  else if name = "og:image format" then some 5
  else if name = "og:image size" then some 10
  else if name = "og:image dimensions" then some 10
  else if name = "og:url" then some 5
  else if name = "twitter:card" then some 5
  else if isProtoName name then none
  else some 5

/-- One iteration of the `for (const check of checks)` loop in
    `calculateScore` (`validate.ts:497-506`): the pair is
    (`score`, `maxPossible`). -/
def scoreStep (a : Option ℚ × Option ℚ) (c : ValidationCheck) : Option ℚ × Option ℚ :=
  let weight := weightOf c.name
  (match c.status with
    | .pass => nanAdd a.1 weight
    | .warn => nanAdd a.1 (nanMul weight (some 0.5))
    | .fail => a.1,
   nanAdd a.2 weight)

/-- `calculateScore` (`validate.ts:480-509`): `Math.round((score /
    maxPossible) * 100)`; `Math.round` of a non-finite value is non-finite. -/
def calculateScore (checks : List ValidationCheck) : Option Int :=
  let acc := checks.foldl scoreStep (some 0, some 0)
  (nanMul (nanDiv acc.1 acc.2) (some 100)).map round

/-! ### Specification-side score (worded from the spec, §4.4)

These definitions follow the spec's words: `possible` is the sum of the
weights of the checks present in the input; `earned` credits full weight on
pass, half weight on warn, zero on fail; the score is
`round(100 * earned / possible)`. -/

/-- The spec's weight table (§4.4): title 15, description 15, image-presence
    20, image-URL-form 5, image-accessible 15, image-format 5, image-size 10,
    image-dimensions 10, og:url 5, twitter:card 5; unknown checks default
    to 5. -/
def specWeight (name : String) : Nat :=
  if name = "og:title" then 15
  else if name = "og:description" then 15
  else if name = "og:image" then 20
  else if name = "og:image URL" then 5
  else if name = "og:image accessible" then 15
  else if name = "og:image format" then 5
  else if name = "og:image size" then 10
  else if name = "og:image dimensions" then 10
  else if name = "og:url" then 5
  else if name = "twitter:card" then 5
  else 5

/-- Credit of a single check per the spec: pass = full weight, warn = half
    weight, fail = zero. -/
def specCredit (c : ValidationCheck) : ℚ :=
  match c.status with
  | .pass => specWeight c.name
  | .warn => (specWeight c.name : ℚ) / 2
  | .fail => 0

/-- The spec's `possible`: sum of the weights of exactly the checks present. -/
def specPossible (cs : List ValidationCheck) : ℚ :=
  (cs.map (fun c => ((specWeight c.name : ℚ)))).sum

/-- The spec's `earned`. -/
def specEarned (cs : List ValidationCheck) : ℚ :=
  (cs.map specCredit).sum

/-- The spec's score formula: `round(100 * earned / possible)`. -/
def specScore (cs : List ValidationCheck) : Int :=
  round (100 * specEarned cs / specPossible cs)

/-- The check set refuting claim C2 as stated: thirty weight-20 passing
    checks plus one weight-5 warning check. -/
def largeCheckSet : List ValidationCheck :=
  List.replicate 30 ⟨"og:image", CheckStatus.pass, "", none, none⟩ ++
    [⟨"og:url", CheckStatus.warn, "", none, none⟩]

def singlePassCheck : List ValidationCheck :=
  [⟨"og:title", CheckStatus.pass, "Title length is optimal (55 chars)", some (.num 55), none⟩]

/-- A check whose name is an `Object.prototype` property name. -/
def toStringCheck : ValidationCheck :=
  ⟨"toString", CheckStatus.pass, "", none, none⟩

/-! ### Image format probe (`validate.ts:440-478`, claim C3) -/

/-- A JS `Uint8Array`: `size` is `.length` and indexing out of bounds yields
    `undefined`, modelled as `none`. -/
structure ByteData where
  size : Nat
  get : Nat → Option Nat

/-- The `ByteData` of a concrete byte list. -/
def bytesOf (l : List Nat) : ByteData :=
  ⟨l.length, fun i => l.get? i⟩

/-- A possibly-undefined byte as it enters JS bit arithmetic (`undefined`
    coerces to `NaN`, which `ToInt32` maps to 0). -/
def byteVal (b : Option Nat) : Nat := b.getD 0

/-- JS `ToInt32` on a non-negative value: the result of `|`/`<<`, a signed
    32-bit two's-complement integer. -/
def toInt32 (n : Nat) : Int :=
  if n % 4294967296 < 2147483648 then ((n % 4294967296 : Nat) : Int)
  else ((n % 4294967296 : Nat) : Int) - 4294967296

/-- `(data[i] << 24) | (data[i+1] << 16) | (data[i+2] << 8) | data[i+3]`,
    the big-endian 32-bit reads of `getPNGDimensions`. -/
def readBE32 (d : ByteData) (i : Nat) : Int :=
  toInt32 (byteVal (d.get i) <<< 24 ||| byteVal (d.get (i + 1)) <<< 16 |||
    byteVal (d.get (i + 2)) <<< 8 ||| byteVal (d.get (i + 3)))

/-- `(data[i] << 8) | data[i+1]`, the big-endian 16-bit reads of
    `getJPEGDimensions`. -/
def readBE16 (d : ByteData) (i : Nat) : Nat :=
  byteVal (d.get i) <<< 8 ||| byteVal (d.get (i + 1))

structure Dimensions where
  width : Int
  height : Int
deriving DecidableEq, Repr

/-- `marker >= 0xC0 && marker <= 0xC3` in JS, where `marker` may be
    `undefined` (then both comparisons are false). -/
def isSOFMarker (marker : Option Nat) : Bool :=
  match marker with
  | some m => if 0xC0 ≤ m ∧ m ≤ 0xC3 then true else false
  | none => false

/-- The `while (offset < data.length)` marker walk of `getJPEGDimensions`
    (`validate.ts:460-475`). -/
def jpegScan (d : ByteData) (offset : Nat) : Option Dimensions :=
  if _h : offset < d.size then
    if d.get offset ≠ some 0xFF then none
    else if isSOFMarker (d.get (offset + 1)) then
      some ⟨(readBE16 d (offset + 7) : Int), (readBE16 d (offset + 5) : Int)⟩
    else
      jpegScan d (offset + 2 + readBE16 d (offset + 2))
  else none
termination_by d.size - offset
decreasing_by omega

/-- `getJPEGDimensions` (`validate.ts:457-478`): skip the SOI marker, then
    walk the marker stream. -/
def getJPEGDimensions (d : ByteData) : Option Dimensions :=
  jpegScan d 2

/-- `getPNGDimensions` (`validate.ts:440-455`): PNG signature first, JPEG SOI
    second, otherwise no dimensions. -/
def getPNGDimensions (d : ByteData) : Option Dimensions :=
  if d.get 0 ≠ some 137 ∨ d.get 1 ≠ some 80 ∨ d.get 2 ≠ some 78 ∨ d.get 3 ≠ some 71 then
    if d.get 0 = some 0xFF ∧ d.get 1 = some 0xD8 then getJPEGDimensions d
    else none
  else
    some ⟨readBE32 d 16, readBE32 d 20⟩

/-- A minimal PNG header: signature, IHDR length/type, width 1200 at offset
    16, height 630 at offset 20. -/
def pngExample : ByteData :=
  bytesOf [137, 80, 78, 71, 13, 10, 26, 10, 0, 0, 0, 13, 73, 72, 68, 82,
    0, 0, 4, 176, 0, 0, 2, 118]

/-- SOI followed by an SOF0 marker encoding height 630 then width 1200. -/
def jpegExample : ByteData :=
  bytesOf [0xFF, 0xD8, 0xFF, 0xC0, 0, 17, 8, 2, 118, 4, 176, 0]

/-! ### Per-tag checks (`validate.ts:127-438`) -/

/-- JS falsiness of an optional string (`!title`): `undefined` and the empty
    string are both falsy. -/
def falsy (s : Option String) : Bool :=
  match s with
  | none => true
  | some t => t == ""

def charsHaveLead (pat s : List Char) : Bool :=
  match pat, s with
  | [], _ => true
  | _ :: _, [] => false
  | p :: ps, c :: cs => p == c && charsHaveLead ps cs

/-- JS `s.startsWith(pre)`. -/
def strLead (s pre : String) : Bool := charsHaveLead pre.toList s.toList

structure OptRange where
  min : Nat
  max : Nat

structure LenThresholds where
  min : Nat
  optimal : OptRange
  max : Nat

/-- `THRESHOLDS.title` (`validate.ts:30`). -/
def titleThresholds : LenThresholds := ⟨30, ⟨50, 60⟩, 90⟩

/-- `THRESHOLDS.description` (`validate.ts:31`). -/
def descriptionThresholds : LenThresholds := ⟨70, ⟨110, 160⟩, 200⟩

/-- `checkTitle` (`validate.ts:127-176`). -/
def checkTitle (title : Option String) : ValidationCheck :=
  if falsy title then
    ⟨"og:title", .fail, "Missing og:title tag", none,
      some "Add <meta property=\"og:title\" content=\"Your Title\"> to your page"⟩
  else
    let len := (title.getD "").length
    if len < titleThresholds.min then
      ⟨"og:title", .warn, s!"Title too short ({len} chars)", some (.num len),
        some "Aim for 50-60 characters for best display"⟩
    else if len > titleThresholds.max then
      ⟨"og:title", .warn, s!"Title too long ({len} chars) - may be truncated", some (.num len),
        some "Keep under 90 characters, ideally 50-60"⟩
    else if titleThresholds.optimal.min ≤ len ∧ len ≤ titleThresholds.optimal.max then
      ⟨"og:title", .pass, s!"Title length is optimal ({len} chars)", some (.num len), none⟩
    else
      ⟨"og:title", .pass, s!"Title length is acceptable ({len} chars)", some (.num len),
        some "Optimal length is 50-60 characters"⟩

/-- `checkDescription` (`validate.ts:178-227`). -/
def checkDescription (description : Option String) : ValidationCheck :=
  if falsy description then
    ⟨"og:description", .fail, "Missing og:description tag", none,
      some "Add <meta property=\"og:description\" content=\"Your description\"> to your page"⟩
  else
    let len := (description.getD "").length
    if len < descriptionThresholds.min then
      ⟨"og:description", .warn, s!"Description too short ({len} chars)", some (.num len),
        some "Aim for 110-160 characters for best display"⟩
    else if len > descriptionThresholds.max then
      ⟨"og:description", .warn, s!"Description too long ({len} chars) - may be truncated",
        some (.num len), some "Keep under 200 characters, ideally 110-160"⟩
    else if descriptionThresholds.optimal.min ≤ len ∧ len ≤ descriptionThresholds.optimal.max then
      ⟨"og:description", .pass, s!"Description length is optimal ({len} chars)",
        some (.num len), none⟩
    else
      ⟨"og:description", .pass, s!"Description length is acceptable ({len} chars)",
        some (.num len), some "Optimal length is 110-160 characters"⟩

/-- `checkUrl` (`validate.ts:383-399`). -/
def checkUrl (ogUrl : Option String) (pageUrl : Option String) : ValidationCheck :=
  if falsy ogUrl then
    ⟨"og:url", .warn, "Missing og:url tag", none,
      some "Add <meta property=\"og:url\" content=\"https://example.com/page\"> for canonical URL"⟩
  else
    ⟨"og:url", .pass, "og:url is present", some (.str (ogUrl.getD "")), none⟩

def validCards : List String := ["summary", "summary_large_image", "app", "player"]

/-- `checkTwitterCard` (`validate.ts:401-438`). -/
def checkTwitterCard (card : Option String) : ValidationCheck :=
  if falsy card then
    ⟨"twitter:card", .warn, "Missing twitter:card tag", none,
      some "Add <meta name=\"twitter:card\" content=\"summary_large_image\"> for Twitter/X"⟩
  else
    let c := card.getD ""
    if ¬validCards.contains c then
      ⟨"twitter:card", .warn, s!"Unknown twitter:card type: {c}", some (.str c),
        some "Use \"summary_large_image\" for best image display"⟩
    else if c = "summary" then
      ⟨"twitter:card", .pass, "twitter:card is set to summary", some (.str c),
        some "Consider \"summary_large_image\" for larger image display"⟩
    else
      ⟨"twitter:card", .pass, s!"twitter:card is set to {c}", some (.str c), none⟩

/-! ### Image checks (`validate.ts:229-381`) -/

/-- An HTTP image response as `checkImage` consumes it: `ok`/`status` from
    the response object, the `content-type` header, and the body bytes. -/
structure ImageResp where
  ok : Bool
  status : Nat
  contentType : Option String
  body : ByteData

def charsHaveSub (pat s : List Char) : Bool :=
  match s with
  | [] => pat.isEmpty
  | _ :: t => charsHaveLead pat s || charsHaveSub pat t

/-- JS `hay.includes(pat)`. -/
def containsSub (hay pat : String) : Bool := charsHaveSub pat.toList hay.toList

def splitCharAux (c : Char) : List Char → List Char → List (List Char)
  | acc, [] => [acc.reverse]
  | acc, x :: xs =>
    if x == c then acc.reverse :: splitCharAux c [] xs
    else splitCharAux c (x :: acc) xs

/-- JS `f.split(c)` on a single-character separator. -/
def splitChar (c : Char) (s : String) : List String :=
  (splitCharAux c [] s.toList).map String.mk

/-- `f.split('/')[1]` for the entries of the format table. -/
def slashPart1 (f : String) : String := (splitChar '/' f).getD 1 ""

/-- `THRESHOLDS.image.formats` (`validate.ts:36`). -/
def imageFormats : List String := ["image/png", "image/jpeg", "image/webp"]

/-- `Math.round(buffer.byteLength / 1024)` (`validate.ts:311`). -/
def sizeKBOf (byteLength : Nat) : Int := round ((byteLength : ℚ) / 1024)

/-- The file-size check of `checkImage` (`validate.ts:313-336`). The warn
    threshold `THRESHOLDS.image.maxSizeKB * 0.8` is 480 on the integer
    `sizeKB` values compared against it, and `Math.round(600 * 0.8)` in the
    recommendation text is 480. -/
def imageSizeCheck (sizeKB : Int) : ValidationCheck :=
  if sizeKB > 600 then
    ⟨"og:image size", .fail, s!"Image too large ({sizeKB}KB)", some (.num sizeKB),
      some "Keep under 600KB for WhatsApp and other platforms"⟩
  else if sizeKB > 480 then
    ⟨"og:image size", .warn, s!"Image size is borderline ({sizeKB}KB)", some (.num sizeKB),
      some "Aim for under 480KB for safety margin"⟩
  else
    ⟨"og:image size", .pass, s!"Image size is good ({sizeKB}KB)", some (.num sizeKB), none⟩

/-- The dimensions check of `checkImage` (`validate.ts:339-369`). -/
def imageDimsCheck (width height : Int) : ValidationCheck :=
  if width = 1200 ∧ height = 630 then
    ⟨"og:image dimensions", .pass, s!"Perfect dimensions ({width}x{height})",
      some (.str s!"{width}x{height}"), none⟩
  else if 1200 ≤ width ∧ 630 ≤ height then
    ⟨"og:image dimensions", .warn, s!"Dimensions larger than needed ({width}x{height})",
      some (.str s!"{width}x{height}"), some "Recommended: 1200x630px"⟩
  else
    ⟨"og:image dimensions", .warn, s!"Non-standard dimensions ({width}x{height})",
      some (.str s!"{width}x{height}"), some "Recommended: 1200x630px for best display"⟩

/-- The relative-URL resolution of `checkImage` (`validate.ts:242-250`);
    `parse` stands for the platform URL parser, returning
    `(url.protocol, url.host)`. -/
def resolveImageUrl (imageUrl : String) (pageUrl : Option String)
    (parse : String → String × String) : String :=
  if strLead imageUrl "/" && pageUrl.isSome then
    let u := parse (pageUrl.getD "")
    u.1 ++ "//" ++ u.2 ++ imageUrl
  else if !strLead imageUrl "http" && pageUrl.isSome then
    let u := parse (pageUrl.getD "")
    u.1 ++ "//" ++ u.2 ++ "/" ++ imageUrl
  else imageUrl

/-- `checkImage` (`validate.ts:229-381`); `imgFetch` is the image fetch
    oracle (`Except.error` carries the message of a thrown/network error). -/
def checkImage (imageUrl : Option String) (pageUrl : Option String)
    (parse : String → String × String) (imgFetch : String → Except String ImageResp) :
    List ValidationCheck :=
  if falsy imageUrl then
    [⟨"og:image", .fail, "Missing og:image tag", none,
      some "Add <meta property=\"og:image\" content=\"https://example.com/og.png\"> to your page"⟩]
  else
    let iu := imageUrl.getD ""
    let absoluteUrl := resolveImageUrl iu pageUrl parse
    let urlCheck :=
      if !strLead iu "http" then
        ⟨"og:image URL", .warn, "Image URL should be absolute", some (.str iu),
          some "Use full URL like https://example.com/og.png for best compatibility"⟩
      else
        (⟨"og:image URL", .pass, "Image URL is absolute", some (.str iu), none⟩ : ValidationCheck)
    match imgFetch absoluteUrl with
    | .error e =>
      [urlCheck,
       ⟨"og:image accessible", .fail, "Could not fetch image: " ++ e, none,
         some "Ensure the image URL is publicly accessible"⟩]
    | .ok resp =>
      if ¬resp.ok then
        [urlCheck,
         ⟨"og:image accessible", .fail, s!"Image not accessible (HTTP {resp.status})", none,
           some "Ensure the image URL is publicly accessible"⟩]
      else
        let ct := resp.contentType.getD ""
        let formatCheck :=
          if imageFormats.any (fun f => containsSub ct (slashPart1 f)) then
            ⟨"og:image format", .pass, s!"Valid format ({ct})", none, none⟩
          else
            (⟨"og:image format", .warn, s!"Unusual format ({ct})", none,
              some "Use PNG, JPEG, or WebP for best compatibility"⟩ : ValidationCheck)
        let dimChecks :=
          match getPNGDimensions resp.body with
          | some dims => [imageDimsCheck dims.width dims.height]
          | none => []
        [urlCheck, ⟨"og:image accessible", .pass, "Image is accessible", none, none⟩,
          formatCheck, imageSizeCheck (sizeKBOf resp.body.size)] ++ dimChecks

/-- A 616448-byte body (602 KB): every in-range byte reads 0. -/
def bigBody : ByteData := ⟨616448, fun _ => some 0⟩

def bigImageResp : ImageResp := ⟨true, 200, some "image/png", bigBody⟩

/-! ### Meta-tag extraction (`validate.ts:96-125`, claim C9)

The four regular expressions of `getMetaContent` are embedded as
character-list scanners: a match may start at any position (leftmost match);
`[^>]*` admits any run of non-`>` characters before the next literal piece;
`["']` matches either quote; `([^"']*)` captures the maximal quote-free run,
terminated by either quote; the `i` flag is modelled by ASCII lowercasing of
the subject. (Where a tag contains several occurrences of the same
attribute, the scanners take the leftmost rather than the backtracking
regex's rightmost — the patterns are otherwise identical.) -/

def apostChar : Char := Char.ofNat 39

def lowerChar (c : Char) : Char :=
  if 65 ≤ c.toNat ∧ c.toNat ≤ 90 then Char.ofNat (c.toNat + 32) else c

/-- Case-insensitively consume the literal `pat` (given lowercase) from the
    head of `s`, returning the remainder. -/
def ciPrefEat (pat : List Char) (s : List Char) : Option (List Char) :=
  match pat, s with
  | [], _ => some s
  | _ :: _, [] => none
  | p :: ps, c :: cs => if lowerChar c == p then ciPrefEat ps cs else none

/-- `[^>]*` followed by whatever `k` matches: try `k` at each position of a
    `>`-free run. -/
def seekNoGT {α : Type} (k : List Char → Option α) : List Char → Option α
  | [] => k []
  | c :: t =>
    match k (c :: t) with
    | some r => some r
    | none => if c == '>' then none else seekNoGT k t

/-- `["']`. -/
def eatQuote (s : List Char) : Option (List Char) :=
  match s with
  | c :: t => if c == '"' || c == apostChar then some t else none
  | [] => none

/-- `([^"']*)["']`: the capture group and the closing quote. -/
def eatCapture (acc : List Char) : List Char → Option (String × List Char)
  | [] => none
  | c :: t =>
    if c == '"' || c == apostChar then some (String.mk acc.reverse, t)
    else eatCapture (c :: acc) t

/-- `<meta[^>]*ATTR["']PROP["'][^>]*content=["']([^"']*)["']` at the head of
    `s`. -/
def patAttrContent (attr prop : List Char) (s : List Char) : Option String :=
  ciPrefEat "<meta".toList s >>= seekNoGT (fun t1 =>
    ciPrefEat attr t1 >>= fun t2 => eatQuote t2 >>= fun t3 =>
      ciPrefEat prop t3 >>= fun t4 => eatQuote t4 >>= seekNoGT (fun t5 =>
        ciPrefEat "content=".toList t5 >>= fun t6 => eatQuote t6 >>= fun t7 =>
          (eatCapture [] t7).map Prod.fst))

/-- `<meta[^>]*content=["']([^"']*)["'][^>]*ATTR["']PROP["']` at the head of
    `s`. -/
def patContentAttr (attr prop : List Char) (s : List Char) : Option String :=
  ciPrefEat "<meta".toList s >>= seekNoGT (fun t1 =>
    ciPrefEat "content=".toList t1 >>= fun t2 => eatQuote t2 >>= fun t3 =>
      eatCapture [] t3 >>= fun cap => seekNoGT (fun t4 =>
        ciPrefEat attr t4 >>= fun t5 => eatQuote t5 >>= fun t6 =>
          ciPrefEat prop t6 >>= fun t7 => (eatQuote t7).map (fun _ => cap.1)) cap.2)

/-- Leftmost match: try the pattern at every suffix. -/
def scanFor (m : List Char → Option String) : List Char → Option String
  | [] => m []
  | c :: t =>
    match m (c :: t) with
    | some r => some r
    | none => scanFor m t

/-- `getMetaContent` (`validate.ts:97-111`): the four attribute-order-tolerant
    patterns tried in order, first match wins. -/
def getMetaContent (html : String) (property : String) : Option String :=
  let hl := html.toList
  let p := property.toList
  match scanFor (patAttrContent "property=".toList p) hl with
  | some r => some r
  | none =>
    match scanFor (patContentAttr "property=".toList p) hl with
    | some r => some r
    | none =>
      match scanFor (patAttrContent "name=".toList p) hl with
      | some r => some r
      | none => scanFor (patContentAttr "name=".toList p) hl

/-- `OGTags` (`validate.ts:16-27`). -/
structure OGTags where
  title : Option String
  description : Option String
  image : Option String
  url : Option String
  type : Option String
  siteName : Option String
  twitterCard : Option String
  twitterTitle : Option String
  twitterDescription : Option String
  twitterImage : Option String

/-- `parseOGTags` (`validate.ts:96-125`). -/
def parseOGTags (html : String) : OGTags :=
  ⟨getMetaContent html "og:title", getMetaContent html "og:description",
   getMetaContent html "og:image", getMetaContent html "og:url",
   getMetaContent html "og:type", getMetaContent html "og:site_name",
   getMetaContent html "twitter:card", getMetaContent html "twitter:title",
   getMetaContent html "twitter:description", getMetaContent html "twitter:image"⟩

def helloPropFirst : String := "<meta property=\"og:title\" content=\"Hello\">"

def helloContentFirst : String := "<meta content=\"Hello\" property=\"og:title\">"

def helloUpperCase : String := "<META PROPERTY=\"OG:TITLE\" CONTENT=\"Hello\">"

/-! ### `validateOG` (`validate.ts:40-94`, claims C4 and C10) -/

/-- `validateOG` (`validate.ts:40-94`); `pageFetch` is the page fetch oracle
    (`Except.error` carries the message of the network error or of the
    thrown `HTTP <status>` error on a non-2xx response), `parse` the platform
    URL parser and `imgFetch` the image fetch oracle. -/
def validateOG (targetUrl : String) (pageFetch : Except String String)
    (parse : String → String × String) (imgFetch : String → Except String ImageResp) :
    ValidationResult :=
  match pageFetch with
  | .error e =>
    ⟨targetUrl, some 0, 100,
     [⟨"URL Accessible", .fail, "Could not fetch URL: " ++ e, none, none⟩]⟩
  | .ok html =>
    let tags := parseOGTags html
    let checks := [checkTitle tags.title, checkDescription tags.description] ++
      checkImage tags.image (some targetUrl) parse imgFetch ++
      [checkUrl tags.url (some targetUrl), checkTwitterCard tags.twitterCard]
    ⟨targetUrl, calculateScore checks, 100, checks⟩

def emptyTagsHtml : String :=
  "<meta property=\"og:title\" content=\"\"><meta property=\"og:description\" content=\"\">"

def noTagsHtml : String := ""

/-! ### Site audit (`src/audit.ts`, claims C6, C7, C8) -/

/-- `AuditResult` (`audit.ts:11-23`); absent optional fields are `none`.
    `score` is a JS number-or-NaN like `ValidationResult.score`. -/
structure AuditResult where
  url : String
  path : String
  score : Option Int
  title : Option String := none
  titleLength : Option Int := none
  description : Option String := none
  descriptionLength : Option Int := none
  image : Option String := none
  imageSize : Option Int := none
  imageDimensions : Option String := none
  issues : List String
deriving DecidableEq, Repr

/-- `OGInventory` (`audit.ts:25-31`); `averageScore` is a JS number-or-NaN. -/
structure OGInventory where
  baseUrl : String
  auditedAt : String
  totalPages : Nat
  averageScore : Option Int
  pages : List AuditResult
deriving DecidableEq, Repr

/-- `validation.checks.find(c => c.name === n)`. -/
def findCheck (checks : List ValidationCheck) (n : String) : Option ValidationCheck :=
  checks.find? (fun c => c.name == n)

/-- `typeof check?.value === 'number' ? check.value : undefined`. -/
def numValue (c : Option ValidationCheck) : Option Int :=
  match c with
  | some c =>
    match c.value with
    | some (.num n) => some n
    | _ => none
  | none => none

/-- `typeof check?.value === 'string' ? check.value : undefined`. -/
def strValue (c : Option ValidationCheck) : Option String :=
  match c with
  | some c =>
    match c.value with
    | some (.str s) => some s
    | _ => none
  | none => none

/-- The `AuditResult` built from a successful validation
    (`audit.ts:85-97`). The `title` and `description` fields are `undefined`
    in both branches of the source's conditionals (lines 89 and 91), hence
    always `none` here. -/
def toAuditResult (fullUrl urlPath : String) (v : ValidationResult) : AuditResult :=
  { url := fullUrl
    path := urlPath
    score := v.score
    title := none
    titleLength := numValue (findCheck v.checks "og:title")
    description := none
    descriptionLength := numValue (findCheck v.checks "og:description")
    image := strValue (findCheck v.checks "og:image URL")
    imageSize := numValue (findCheck v.checks "og:image size")
    imageDimensions := strValue (findCheck v.checks "og:image dimensions")
    issues := (v.checks.filter (fun c => c.status != CheckStatus.pass)).map (fun c => c.name) }

/-- `audit.ts:67`: absolute URL of an audited path. -/
def fullUrlOf (origin p : String) : String :=
  if strLead p "http" then p
  else origin ++ (if strLead p "/" then "" else "/") ++ p

/-- One iteration of the per-page loop (`audit.ts:66-113`): `pathnameOf`
    models `new URL(fullUrl).pathname`, `validate` the (fallible) call to
    `validateOG`; a throw is demoted to the degenerate zero-score record. -/
def auditPage (origin : String) (pathnameOf : String → String)
    (validate : String → Except String ValidationResult) (p : String) : AuditResult :=
  let fullUrl := fullUrlOf origin p
  let urlPath := pathnameOf fullUrl
  match validate fullUrl with
  | .ok v => toAuditResult fullUrl urlPath v
  | .error _ => { url := fullUrl, path := urlPath, score := some 0, issues := ["Failed to fetch"] }

/-- The per-page loop over all paths. -/
def auditPages (origin : String) (pathnameOf : String → String)
    (validate : String → Except String ValidationResult) (paths : List String) :
    List AuditResult :=
  paths.map (auditPage origin pathnameOf validate)

/-- A page score as a summand (number-or-NaN in `ℚ`). -/
def scoreQ (r : AuditResult) : Option ℚ := r.score.map (fun n => (n : ℚ))

/-- The inventory a full audit run persists (`audit.ts:117-123`):
    `averageScore` is `Math.round(results.reduce((sum, r) => sum + r.score, 0)
    / results.length)` (NaN for an empty `results`, where the sum 0 is
    divided by length 0). -/
def auditInventory (baseUrl auditedAt : String) (results : List AuditResult) : OGInventory :=
  { baseUrl := baseUrl
    auditedAt := auditedAt
    totalPages := results.length
    averageScore :=
      (nanDiv (results.foldl (fun sum r => nanAdd sum (scoreQ r)) (some 0))
        (some (results.length : ℚ))).map round
    pages := results }

/-! The `og init` command (CLI `main`, the `init` branch): load or initialize
    the inventory, append each path not already present (seeded with score 0
    and issue `"Not audited yet"`), then set `totalPages` and `auditedAt`
    and re-save. `averageScore` is not recomputed. -/

/-- The fresh inventory of the `catch` branch of `og init`. -/
def freshInventory (now : String) : OGInventory :=
  { baseUrl := "local", auditedAt := now, totalPages := 0, averageScore := some 0, pages := [] }

/-- `path.startsWith('/') ? path : '/' + path`. -/
def normalizePath (p : String) : String :=
  if strLead p "/" then p else "/" ++ p

/-- One iteration of the `for (const path of paths)` loop of `og init`. -/
def addPath (inv : OGInventory) (p : String) : OGInventory :=
  let np := normalizePath p
  if (inv.pages.find? (fun q => q.path == np)).isSome then inv
  else
    { inv with pages := inv.pages ++
        [{ url := "local://" ++ np, path := np, score := some 0, issues := ["Not audited yet"] }] }

/-- The inventory written by `og init` given the loaded inventory (or none)
    and the requested paths. -/
def initInventory (existing : Option OGInventory) (paths : List String) (now : String) :
    OGInventory :=
  let inv := paths.foldl addPath (existing.getD (freshInventory now))
  { inv with totalPages := inv.pages.length, auditedAt := now }

/-- Sum of number-or-NaN values. -/
def nanSum (l : List (Option ℚ)) : Option ℚ := l.foldr nanAdd (some 0)

/-- The spec's mean-score formula over an inventory's pages, with the same
    number-or-NaN arithmetic. -/
def meanScore (pages : List AuditResult) : Option Int :=
  (nanDiv (nanSum (pages.map scoreQ)) (some (pages.length : ℚ))).map round

/-- An inventory as a completed audit of one perfect page leaves it. -/
def auditedOnePage : OGInventory :=
  { baseUrl := "local", auditedAt := "t0", totalPages := 1, averageScore := some 100,
    pages := [{ url := "local:///", path := "/", score := some 100, issues := [] }] }

/-! ### Sitemap discovery (`audit.ts:135-192`, claim C7)

`fetch` returns `some body` on an HTTP success and `none` on a non-2xx
response or a thrown network error (both lead to "try the next candidate" in
the source). `pathnameOf m origin` models `new URL(m, origin).pathname`. -/

structure SitemapUrl where
  loc : String
  lastmod : Option String := none
  priority : Option String := none
deriving DecidableEq, Repr

/-- ASCII whitespace as matched by `\s` and trimmed by `trim` (the JS classes
    also include rare Unicode spaces, irrelevant to the data handled here). -/
def wsChar (c : Char) : Bool :=
  c == ' ' || c == '\t' || c == '\n' || c == '\r' || c == '\x0b' || c == '\x0c'

/-- JS `s.trim()`. -/
def trimStr (s : String) : String :=
  String.mk (((s.toList.dropWhile wsChar).reverse.dropWhile wsChar).reverse)

/-- `robotsTxt.match(/Sitemap:\s*(.+)/i)`: at the leftmost occurrence of
    `Sitemap:` (case-insensitive), the greedy `\s*` takes the whole
    whitespace run and `(.+)` captures from the first non-whitespace
    character to the end of its line. When the whitespace run extends to the
    end of the input, the engine backtracks `\s*` and `(.+)` instead captures
    from the last non-newline whitespace character (a single whitespace
    character, later trimmed to the empty string); if the run is empty or
    all newlines, this occurrence does not match and the scan continues. -/
def robotsSitemapAux : List Char → Option String
  | [] => none
  | s@(_ :: t) =>
    match ciPrefEat "sitemap:".toList s with
    | some rest =>
      match rest.dropWhile (fun c => wsChar c) with
      | [] =>
        match rest.reverse.find? (fun c => !(c == '\n' || c == '\r')) with
        | some c => some (String.mk [c])
        | none => robotsSitemapAux t
      | afterWs => some (String.mk (afterWs.takeWhile (fun c => !(c == '\n' || c == '\r'))))
    | none => robotsSitemapAux t

def robotsSitemapDirective (txt : String) : Option String :=
  robotsSitemapAux txt.toList

/-- Case-insensitively drop up to and including the leftmost occurrence of
    `pat`. -/
def dropToAfterCI (pat : List Char) : List Char → Option (List Char)
  | [] => ciPrefEat pat []
  | s@(_ :: t) =>
    match ciPrefEat pat s with
    | some rest => some rest
    | none => dropToAfterCI pat t

/-- `(.+?)<\/loc>`: the lazy capture — consume non-newline characters one at
    a time (at least one), returning as soon as `</loc>` follows. -/
def grabLocAux (acc : List Char) : List Char → Option (List Char × List Char)
  | [] => none
  | c :: t =>
    if c == '\n' || c == '\r' then none
    else
      match ciPrefEat "</loc>".toList t with
      | some rest => some ((c :: acc).reverse, rest)
      | none => grabLocAux (c :: acc) t

def grabLoc (s : List Char) : Option (List Char × List Char) :=
  grabLocAux [] s

/-- `[\s\S]*?<loc>(.+?)<\/loc>`: find the first completable `<loc>…</loc>`
    (moving to the next `<loc>` when a capture cannot complete before a
    newline). Fuel-driven; each step consumes at least the five characters of
    `<loc>`, so `s.length` fuel never runs out. -/
def scanLocsGo : Nat → List Char → Option (List Char × List Char)
  | 0, _ => none
  | fuel + 1, s =>
    match dropToAfterCI "<loc>".toList s with
    | none => none
    | some s2 =>
      match grabLoc s2 with
      | some r => some r
      | none => scanLocsGo fuel s2

/-- The `matchAll` loop of `parseSitemap` (`audit.ts:184-189`) over
    `/<url>[\s\S]*?<loc>(.+?)<\/loc>[\s\S]*?<\/url>/gi`: each match finds the
    next `<url>`, the first completable `<loc>…</loc>` capture after it and
    the following `</url>`, pushes the trimmed capture, and resumes after the
    `</url>`. Fuel-driven; each match consumes at least `<url>`, so
    `s.length` fuel suffices. -/
def sitemapUrlsGo : Nat → List Char → List SitemapUrl
  | 0, _ => []
  | fuel + 1, s =>
    match dropToAfterCI "<url>".toList s with
    | none => []
    | some s1 =>
      match scanLocsGo (s1.length + 1) s1 with
      | none => []
      | some (cap, s3) =>
        match dropToAfterCI "</url>".toList s3 with
        | none => []
        | some s4 => { loc := trimStr (String.mk cap) } :: sitemapUrlsGo fuel s4

/-- `parseSitemap` (`audit.ts:171-192`); as in the source, `origin` is
    unused and the `<sitemapindex` test only prints a diagnostic. -/
def parseSitemap (xml : String) (origin : String) : List SitemapUrl :=
  sitemapUrlsGo (xml.toList.length + 1) xml.toList

/-- The three default candidate paths (`audit.ts:136-140`). -/
def defaultSitemapLocations : List String :=
  ["/sitemap.xml", "/sitemap_index.xml", "/sitemap-index.xml"]

/-- The candidate list after the robots.txt step (`audit.ts:142-154`): a
    `Sitemap:` directive's path is prepended (`unshift`). The whole step runs
    inside a `try { … } catch { /* ignore */ }`, so when
    `new URL(match[1].trim(), origin)` throws — `pathnameOf` returns `none` —
    the directive is ignored and only the defaults remain. -/
def sitemapCandidates (origin : String) (fetch : String → Option String)
    (pathnameOf : String → String → Option String) : List String :=
  match fetch (origin ++ "/robots.txt") with
  | some robotsTxt =>
    match robotsSitemapDirective robotsTxt with
    | some m =>
      match pathnameOf (trimStr m) origin with
      | some p => p :: defaultSitemapLocations
      | none => defaultSitemapLocations
    | none => defaultSitemapLocations
  | none => defaultSitemapLocations

/-- The `for (const loc of sitemapLocations)` loop (`audit.ts:156-166`):
    first HTTP success is parsed and returned, failures move on. -/
def tryLocations (origin : String) (fetch : String → Option String) :
    List String → List SitemapUrl
  | [] => []
  | loc :: rest =>
    match fetch (origin ++ loc) with
    | some xml => parseSitemap xml origin
    | none => tryLocations origin fetch rest

/-- `findSitemap` (`audit.ts:135-169`). -/
def findSitemap (origin : String) (fetch : String → Option String)
    (pathnameOf : String → String → Option String) : List SitemapUrl :=
  tryLocations origin fetch (sitemapCandidates origin fetch pathnameOf)

def demoRobots : String := "Sitemap: https://x.com/custom.xml"

def demoFetch : String → Option String := fun u =>
  if u == "https://x.com/robots.txt" then some demoRobots
  else if u == "https://x.com/custom.xml" then
    some "<url><loc>https://x.com/a</loc></url>"
  else if u == "https://x.com/sitemap.xml" then
    some "<url><loc>https://x.com/b</loc></url>"
  else none

def demoPathname : String → String → Option String := fun m _ =>
  if m == "https://x.com/custom.xml" then some "/custom.xml" else none

/-! ### Theorems -/

/-! ### Score theorems (claims C1 and C2) -/

theorem five_le_specWeight (n : String) : (5 : ℚ) ≤ (specWeight n : ℚ) := by
  have : 5 ≤ specWeight n := by
    unfold specWeight
    repeat' split
    all_goals norm_num
  exact_mod_cast this

theorem specCredit_nonneg (c : ValidationCheck) : 0 ≤ specCredit c := by
  have hw : (0 : ℚ) ≤ (specWeight c.name : ℚ) := by positivity
  cases h : c.status <;> simp [specCredit, h] <;> positivity

theorem specCredit_le_weight (c : ValidationCheck) :
    specCredit c ≤ (specWeight c.name : ℚ) := by
  have hw : (0 : ℚ) ≤ (specWeight c.name : ℚ) := by positivity
  cases hs : c.status with
  | pass => simp [specCredit, hs]
  | warn => simp only [specCredit, hs]; linarith
  | fail => simp only [specCredit, hs]; exact hw

theorem specCredit_le_weight_sub (c : ValidationCheck) (h : c.status ≠ CheckStatus.pass) :
    specCredit c ≤ (specWeight c.name : ℚ) - 5 / 2 := by
  have hw := five_le_specWeight c.name
  cases hs : c.status with
  | pass => exact absurd hs h
  | warn => simp only [specCredit, hs]; linarith
  | fail => simp only [specCredit, hs]; linarith

theorem specCredit_ge_half_five (c : ValidationCheck) (h : c.status ≠ CheckStatus.fail) :
    5 / 2 ≤ specCredit c := by
  have hw := five_le_specWeight c.name
  cases hs : c.status with
  | pass => simp only [specCredit, hs]; linarith
  | warn => simp only [specCredit, hs]; linarith
  | fail => exact absurd hs h

theorem specEarned_nonneg (cs : List ValidationCheck) : 0 ≤ specEarned cs := by
  induction cs with
  | nil => simp [specEarned]
  | cons c t ih =>
    simp only [specEarned, List.map_cons, List.sum_cons]
    have := specCredit_nonneg c
    simp only [specEarned] at ih
    linarith

theorem specPossible_nonneg (cs : List ValidationCheck) : 0 ≤ specPossible cs := by
  induction cs with
  | nil => simp [specPossible]
  | cons c t ih =>
    simp only [specPossible, List.map_cons, List.sum_cons]
    have : (0 : ℚ) ≤ (specWeight c.name : ℚ) := by positivity
    simp only [specPossible] at ih
    linarith

theorem specEarned_le_specPossible (cs : List ValidationCheck) :
    specEarned cs ≤ specPossible cs := by
  induction cs with
  | nil => simp [specEarned, specPossible]
  | cons c t ih =>
    simp only [specEarned, specPossible, List.map_cons, List.sum_cons] at *
    have := specCredit_le_weight c
    linarith

theorem five_le_specPossible (cs : List ValidationCheck) (h : cs ≠ []) :
    (5 : ℚ) ≤ specPossible cs := by
  cases cs with
  | nil => exact absurd rfl h
  | cons c t =>
    simp only [specPossible, List.map_cons, List.sum_cons]
    have h1 := five_le_specWeight c.name
    have h2 := specPossible_nonneg t
    simp only [specPossible] at h2
    linarith

theorem specEarned_eq_of_all_pass (cs : List ValidationCheck)
    (h : ∀ c ∈ cs, c.status = CheckStatus.pass) :
    specEarned cs = specPossible cs := by
  induction cs with
  | nil => simp [specEarned, specPossible]
  | cons c t ih =>
    simp only [specEarned, specPossible, List.map_cons, List.sum_cons] at *
    rw [ih (fun d hd => h d (List.mem_cons_of_mem c hd))]
    have hc : specCredit c = (specWeight c.name : ℚ) := by
      simp [specCredit, h c (List.mem_cons_self c t)]
    rw [hc]

theorem specEarned_eq_zero_of_all_fail (cs : List ValidationCheck)
    (h : ∀ c ∈ cs, c.status = CheckStatus.fail) :
    specEarned cs = 0 := by
  induction cs with
  | nil => simp [specEarned]
  | cons c t ih =>
    simp only [specEarned, List.map_cons, List.sum_cons] at *
    rw [ih (fun d hd => h d (List.mem_cons_of_mem c hd))]
    have hc : specCredit c = 0 := by
      simp [specCredit, h c (List.mem_cons_self c t)]
    rw [hc, add_zero]

theorem specEarned_le_of_not_pass (cs : List ValidationCheck) (c : ValidationCheck)
    (hc : c ∈ cs) (hs : c.status ≠ CheckStatus.pass) :
    specEarned cs ≤ specPossible cs - 5 / 2 := by
  induction cs with
  | nil => exact absurd hc (List.not_mem_nil c)
  | cons d t ih =>
    simp only [specEarned, specPossible, List.map_cons, List.sum_cons] at *
    rcases List.mem_cons.mp hc with h | h
    · subst h
      have h1 := specCredit_le_weight_sub c hs
      have h2 := specEarned_le_specPossible t
      simp only [specEarned, specPossible] at h2
      linarith
    · have h1 := specCredit_le_weight d
      have h2 := ih h
      linarith

theorem half_five_le_specEarned_of_not_fail (cs : List ValidationCheck) (c : ValidationCheck)
    (hc : c ∈ cs) (hs : c.status ≠ CheckStatus.fail) :
    5 / 2 ≤ specEarned cs := by
  induction cs with
  | nil => exact absurd hc (List.not_mem_nil c)
  | cons d t ih =>
    simp only [specEarned, List.map_cons, List.sum_cons] at *
    rcases List.mem_cons.mp hc with h | h
    · subst h
      have h1 := specCredit_ge_half_five c hs
      have h2 := specEarned_nonneg t
      simp only [specEarned] at h2
      linarith
    · have h1 := specCredit_nonneg d
      have h2 := ih h
      linarith

set_option maxHeartbeats 1600000 in
theorem weightOf_eq_of_not_proto (n : String) (h : isProtoName n = false) :
    weightOf n = some ((specWeight n : ℚ)) := by
  unfold weightOf specWeight
  rw [h]
  split_ifs <;> first | contradiction | norm_num

theorem weightOf_of_proto (n : String) (h : isProtoName n = true) :
    weightOf n = none := by
  have hmem : n ∈ protoNames := by
    unfold isProtoName at h
    exact List.elem_iff.mp h
  fin_cases hmem <;> rfl

theorem scoreStep_foldl (cs : List ValidationCheck)
    (hp : ∀ c ∈ cs, isProtoName c.name = false) :
    ∀ a b : ℚ, cs.foldl scoreStep (some a, some b) =
      (some (a + specEarned cs), some (b + specPossible cs)) := by
  induction cs with
  | nil => intro a b; simp [specEarned, specPossible]
  | cons c t ih =>
    intro a b
    have hc : isProtoName c.name = false := hp c (List.mem_cons_self c t)
    have ht : ∀ d ∈ t, isProtoName d.name = false :=
      fun d hd => hp d (List.mem_cons_of_mem c hd)
    simp only [List.foldl_cons, specEarned, specPossible, List.map_cons, List.sum_cons]
    rw [show scoreStep (some a, some b) c =
        (some (a + specCredit c), some (b + (specWeight c.name : ℚ))) from ?_]
    · rw [ih ht]
      simp only [specEarned, specPossible, Prod.mk.injEq, Option.some.injEq]
      exact ⟨by ring, by ring⟩
    · cases hs : c.status <;>
        simp only [scoreStep, hs, specCredit, weightOf_eq_of_not_proto c.name hc, nanAdd,
          nanMul, Prod.mk.injEq, Option.some.injEq] <;>
        norm_num <;>
        ring

theorem foldl_scoreStep_poisoned (cs : List ValidationCheck) :
    ∀ p : Option ℚ × Option ℚ, p.2 = none → (cs.foldl scoreStep p).2 = none := by
  induction cs with
  | nil => intro p hp; exact hp
  | cons c t ih =>
    intro p hp
    simp only [List.foldl_cons]
    apply ih
    simp only [scoreStep, hp]
    cases weightOf c.name <;> rfl

theorem foldl_scoreStep_proto (cs : List ValidationCheck) (c : ValidationCheck)
    (hc : c ∈ cs) (h : isProtoName c.name = true) :
    ∀ p : Option ℚ × Option ℚ, (cs.foldl scoreStep p).2 = none := by
  induction cs with
  | nil => exact absurd hc (List.not_mem_nil c)
  | cons d t ih =>
    intro p
    simp only [List.foldl_cons]
    rcases List.mem_cons.mp hc with rfl | hmem
    · apply foldl_scoreStep_poisoned
      simp only [scoreStep, weightOf_of_proto c.name h]
      cases p.2 <;> rfl
    · exact ih hmem (scoreStep p d)

theorem calculateScore_poisoned (cs : List ValidationCheck)
    (h : (cs.foldl scoreStep (some 0, some 0)).2 = none) :
    calculateScore cs = none := by
  simp only [calculateScore]
  rw [h]
  cases (cs.foldl scoreStep (some 0, some 0)).1 <;> rfl

theorem calculateScore_of_proto (cs : List ValidationCheck) (c : ValidationCheck)
    (hc : c ∈ cs) (h : isProtoName c.name = true) :
    calculateScore cs = none :=
  calculateScore_poisoned cs (foldl_scoreStep_proto cs c hc h (some 0, some 0))

theorem calculateScore_eq (cs : List ValidationCheck)
    (hp : ∀ c ∈ cs, isProtoName c.name = false) (hne : cs ≠ []) :
    calculateScore cs = some (round (100 * specEarned cs / specPossible cs)) := by
  have hp5 := five_le_specPossible cs hne
  have hp0 : (0 : ℚ) < specPossible cs := by linarith
  simp only [calculateScore]
  rw [scoreStep_foldl cs hp 0 0]
  simp only [zero_add, nanDiv, if_neg hp0.ne', nanMul, Option.map_some']
  rw [div_mul_eq_mul_div, mul_comm]

/-- C1 (amended): for every non-empty sequence of checks none of whose names
    is an `Object.prototype` property name, the computed score equals
    `round(100 * earned / possible)` with the spec's weight table, `possible`
    summing the weights of exactly the checks present (unknown names default
    to 5) and `earned` crediting full weight on pass, half on warn, zero on
    fail; a sequence containing a prototype-named check — whose table lookup
    finds the inherited truthy non-number — instead yields NaN, as does the
    empty sequence (`0/0`). -/
theorem calculateScore_refines_specScore :
    (∀ cs : List ValidationCheck, (∀ c ∈ cs, isProtoName c.name = false) → cs ≠ [] →
       calculateScore cs = some (specScore cs)) ∧
    (∀ (cs : List ValidationCheck) (c : ValidationCheck), c ∈ cs →
       isProtoName c.name = true → calculateScore cs = none) ∧
    calculateScore ([] : List ValidationCheck) = none := by
  refine ⟨?_, ?_, ?_⟩
  · intro cs hp hne
    rw [calculateScore_eq cs hp hne, specScore]
  · intro cs c hc h
    exact calculateScore_of_proto cs c hc h
  · simp [calculateScore, nanDiv, nanMul]

/-- Witness for C1 (amended) at a concrete input. -/
theorem calculateScore_refines_specScore_witness :
    calculateScore singlePassCheck = some (specScore singlePassCheck) :=
  calculateScore_refines_specScore.1 singlePassCheck (by decide) (by decide)

/-- Counterexample to C1 as stated: a passing check named `toString` hits the
    inherited `Object.prototype.toString` in the weight table (`weights[name]
    || 5` keeps the truthy function, which `+` coerces to NaN), so the
    program's score is NaN, while the claimed formula with default weight 5
    for an unknown name gives `round(100 * 5 / 5) = 100`. -/
theorem calculateScore_toString_nan :
    calculateScore [toStringCheck] = none ∧ specScore [toStringCheck] = 100 := by
  constructor
  · rfl
  · have h1 : specEarned [toStringCheck] = 5 := by
      simp only [specEarned, List.map_cons, List.map_nil, List.sum_cons, List.sum_nil,
        specCredit, toStringCheck, specWeight, String.reduceEq, reduceIte]
      norm_num
    have h2 : specPossible [toStringCheck] = 5 := by
      simp only [specPossible, List.map_cons, List.map_nil, List.sum_cons, List.sum_nil,
        toStringCheck, specWeight, String.reduceEq, reduceIte]
      norm_num
    rw [specScore, h1, h2]
    norm_num [round_eq]

/-- C2 (amended): for every non-empty check set none of whose names is an
    `Object.prototype` property name, the score is a number `n` with
    `0 ≤ n ≤ 100`; and whenever the total weight of the present checks is
    below 500 (which holds for every check list the validator itself
    produces, whose distinct-named checks total at most 105), the score
    equals 100 iff every present check passes and equals 0 iff every present
    check fails. -/
theorem calculateScore_bounds_and_extremes (cs : List ValidationCheck) (h : cs ≠ [])
    (hproto : ∀ c ∈ cs, isProtoName c.name = false) :
    (∃ n : Int, calculateScore cs = some n ∧ 0 ≤ n ∧ n ≤ 100) ∧
    (specPossible cs < 500 →
      ((calculateScore cs = some 100 ↔ ∀ c ∈ cs, c.status = CheckStatus.pass) ∧
       (calculateScore cs = some 0 ↔ ∀ c ∈ cs, c.status = CheckStatus.fail))) := by
  have hp5 := five_le_specPossible cs h
  have hp0 : (0 : ℚ) < specPossible cs := by linarith
  have he0 := specEarned_nonneg cs
  have hep := specEarned_le_specPossible cs
  rw [calculateScore_eq cs hproto h]
  simp only [Option.some.injEq]
  set e := specEarned cs with he_def
  set p := specPossible cs with hp_def
  have hq0 : 0 ≤ 100 * e / p := by positivity
  have hq100 : 100 * e / p ≤ 100 := by
    rw [div_le_iff₀ hp0]
    nlinarith
  constructor
  · refine ⟨round (100 * e / p), rfl, ?_, ?_⟩
    · rw [round_eq]
      exact Int.le_floor.mpr (by push_cast; linarith)
    · rw [round_eq]
      have : ⌊100 * e / p + 1 / 2⌋ < 101 := Int.floor_lt.mpr (by push_cast; linarith)
      omega
  · intro hlt
    have h250 : (1 : ℚ) / 2 < 250 / p := by
      rw [lt_div_iff₀ hp0]
      linarith
    constructor
    · constructor
      · intro h100
        by_contra hnot
        push_neg at hnot
        obtain ⟨c, hc, hcs⟩ := hnot
        have h1 : e ≤ p - 5 / 2 := specEarned_le_of_not_pass cs c hc hcs
        have h2 : 100 * e / p ≤ 100 - 250 / p := by
          rw [div_le_iff₀ hp0, sub_mul, div_mul_cancel₀ _ hp0.ne']
          nlinarith
        have hlt : round (100 * e / p) < 100 := by
          rw [round_eq]
          exact Int.floor_lt.mpr (by push_cast; linarith)
        omega
      · intro hall
        have : e = p := specEarned_eq_of_all_pass cs hall
        rw [this, mul_div_assoc, div_self hp0.ne', mul_one]
        norm_num [round_eq]
    · constructor
      · intro h0
        by_contra hnot
        push_neg at hnot
        obtain ⟨c, hc, hcs⟩ := hnot
        have h1 : 5 / 2 ≤ e := half_five_le_specEarned_of_not_fail cs c hc hcs
        have h2 : 250 / p ≤ 100 * e / p := by
          rw [div_le_div_iff₀ hp0 hp0]
          nlinarith
        have hge : 1 ≤ round (100 * e / p) := by
          rw [round_eq]
          exact Int.le_floor.mpr (by push_cast; linarith)
        omega
      · intro hall
        have : e = 0 := specEarned_eq_zero_of_all_fail cs hall
        rw [this, mul_zero, zero_div]
        norm_num [round_eq]

/-- Counterexample to C2 as stated: `largeCheckSet` is non-empty, not every
    check passes (the last one warns), yet the computed score is 100
    (earned 602.5 of possible 605 gives 99.59, which rounds to 100). -/
theorem calculateScore_hundred_without_all_pass :
    largeCheckSet ≠ [] ∧
    calculateScore largeCheckSet = some 100 ∧
    ¬(∀ c ∈ largeCheckSet, c.status = CheckStatus.pass) := by
  refine ⟨by decide, ?_, by decide⟩
  have he : specEarned largeCheckSet = 1205 / 2 := by
    simp only [largeCheckSet, specEarned, List.map_append, List.map_replicate,
      List.map_cons, List.map_nil, List.sum_append, List.sum_replicate,
      List.sum_cons, List.sum_nil, specCredit, specWeight, String.reduceEq, reduceIte]
    norm_num
  have hp : specPossible largeCheckSet = 605 := by
    simp only [largeCheckSet, specPossible, List.map_append, List.map_replicate,
      List.map_cons, List.map_nil, List.sum_append, List.sum_replicate,
      List.sum_cons, List.sum_nil, specWeight, String.reduceEq, reduceIte]
    norm_num
  rw [calculateScore_eq largeCheckSet (by decide) (by decide), he, hp]
  simp only [Option.some.injEq]
  norm_num [round_eq]

/-- Witness for C2 (amended) at a concrete input. -/
theorem calculateScore_bounds_and_extremes_witness :
    (∃ n : Int, calculateScore singlePassCheck = some n ∧ 0 ≤ n ∧ n ≤ 100) ∧
    (specPossible singlePassCheck < 500 →
      ((calculateScore singlePassCheck = some 100 ↔
          ∀ c ∈ singlePassCheck, c.status = CheckStatus.pass) ∧
       (calculateScore singlePassCheck = some 0 ↔
          ∀ c ∈ singlePassCheck, c.status = CheckStatus.fail))) :=
  calculateScore_bounds_and_extremes singlePassCheck (by decide) (by decide)

theorem jpegScan_sof (d : ByteData) (offset m : Nat) (h : offset < d.size)
    (hff : d.get offset = some 0xFF) (hm : d.get (offset + 1) = some m)
    (h1 : 0xC0 ≤ m) (h2 : m ≤ 0xC3) :
    jpegScan d offset =
      some ⟨(readBE16 d (offset + 7) : Int), (readBE16 d (offset + 5) : Int)⟩ := by
  rw [jpegScan]
  rw [dif_pos h, if_neg (by simp [hff]), if_pos (by simp [isSOFMarker, hm, h1, h2])]

theorem jpegScan_skip (d : ByteData) (offset : Nat) (h : offset < d.size)
    (hff : d.get offset = some 0xFF) (hm : isSOFMarker (d.get (offset + 1)) = false) :
    jpegScan d offset = jpegScan d (offset + 2 + readBE16 d (offset + 2)) := by
  rw [jpegScan]
  rw [dif_pos h, if_neg (by simp [hff]), if_neg (by simp [hm])]

theorem jpegScan_stop (d : ByteData) (offset : Nat) (h : offset < d.size)
    (hff : d.get offset ≠ some 0xFF) :
    jpegScan d offset = none := by
  rw [jpegScan]
  rw [dif_pos h, if_pos hff]

theorem getPNGDimensions_png (d : ByteData)
    (h0 : d.get 0 = some 137) (h1 : d.get 1 = some 80)
    (h2 : d.get 2 = some 78) (h3 : d.get 3 = some 71) :
    getPNGDimensions d = some ⟨readBE32 d 16, readBE32 d 20⟩ := by
  rw [getPNGDimensions, if_neg]
  push_neg
  exact ⟨h0, h1, h2, h3⟩

theorem getPNGDimensions_jpeg (d : ByteData)
    (hne : d.get 0 ≠ some 137 ∨ d.get 1 ≠ some 80 ∨ d.get 2 ≠ some 78 ∨ d.get 3 ≠ some 71)
    (hff : d.get 0 = some 0xFF) (hd8 : d.get 1 = some 0xD8) :
    getPNGDimensions d = jpegScan d 2 := by
  rw [getPNGDimensions, if_pos hne, if_pos ⟨hff, hd8⟩, getJPEGDimensions]

theorem getPNGDimensions_none (d : ByteData)
    (hne : d.get 0 ≠ some 137 ∨ d.get 1 ≠ some 80 ∨ d.get 2 ≠ some 78 ∨ d.get 3 ≠ some 71)
    (hnj : ¬(d.get 0 = some 0xFF ∧ d.get 1 = some 0xD8)) :
    getPNGDimensions d = none := by
  rw [getPNGDimensions, if_pos hne, if_neg hnj]

/-- C3: the image dimension probe checks the PNG signature first and returns
    the big-endian 32-bit reads at offsets 16 (width) and 20 (height); else,
    on a JPEG SOI, walks the marker stream (skipping each non-SOF marker by
    its 2-byte big-endian length) and on the first SOF marker with type byte
    in `0xC0`-`0xC3` returns the big-endian 16-bit height at offset +5 and
    width at offset +7 (height before width); otherwise returns no
    dimensions. In particular the minimal PNG header encoding 1200x630 and
    the SOI+SOF0 stream encoding height 630, width 1200 both yield
    `{width 1200, height 630}`. -/
theorem probe_detection_order :
    (∀ d : ByteData,
       d.get 0 = some 137 → d.get 1 = some 80 → d.get 2 = some 78 → d.get 3 = some 71 →
       getPNGDimensions d = some ⟨readBE32 d 16, readBE32 d 20⟩) ∧
    (∀ d : ByteData,
       (d.get 0 ≠ some 137 ∨ d.get 1 ≠ some 80 ∨ d.get 2 ≠ some 78 ∨ d.get 3 ≠ some 71) →
       d.get 0 = some 0xFF → d.get 1 = some 0xD8 →
       getPNGDimensions d = jpegScan d 2) ∧
    (∀ d : ByteData,
       (d.get 0 ≠ some 137 ∨ d.get 1 ≠ some 80 ∨ d.get 2 ≠ some 78 ∨ d.get 3 ≠ some 71) →
       ¬(d.get 0 = some 0xFF ∧ d.get 1 = some 0xD8) →
       getPNGDimensions d = none) ∧
    (∀ (d : ByteData) (offset m : Nat), offset < d.size →
       d.get offset = some 0xFF → d.get (offset + 1) = some m → 0xC0 ≤ m → m ≤ 0xC3 →
       jpegScan d offset =
         some ⟨(readBE16 d (offset + 7) : Int), (readBE16 d (offset + 5) : Int)⟩) ∧
    (∀ (d : ByteData) (offset : Nat), offset < d.size →
       d.get offset = some 0xFF → isSOFMarker (d.get (offset + 1)) = false →
       jpegScan d offset = jpegScan d (offset + 2 + readBE16 d (offset + 2))) ∧
    getPNGDimensions pngExample = some ⟨1200, 630⟩ ∧
    getPNGDimensions jpegExample = some ⟨1200, 630⟩ := by
  refine ⟨getPNGDimensions_png, getPNGDimensions_jpeg, getPNGDimensions_none,
    jpegScan_sof, jpegScan_skip, ?_, ?_⟩
  · rw [getPNGDimensions_png pngExample (by decide) (by decide) (by decide) (by decide)]
    decide
  · rw [getPNGDimensions_jpeg jpegExample (by decide) (by decide) (by decide),
      jpegScan_sof jpegExample 2 0xC0 (by decide) (by decide) (by decide) (by decide) (by decide)]
    decide

/-- Witness for C3: the PNG branch applied at the concrete header. -/
theorem probe_detection_order_witness :
    getPNGDimensions pngExample = some ⟨readBE32 pngExample 16, readBE32 pngExample 20⟩ :=
  probe_detection_order.1 pngExample (by decide) (by decide) (by decide) (by decide)

/-- C5 (amended): an out-of-range present title length, description length or
    image dimensions yields a `warn` check with a corrective recommendation,
    never `fail`; an out-of-range image size yields `warn` with a
    recommendation only in the borderline band (over 480 KB up to the 600 KB
    ceiling) and `fail` above the ceiling. -/
theorem out_of_range_statuses :
    (∀ t : String, t ≠ "" → t.length < 30 ∨ t.length > 90 →
       (checkTitle (some t)).status = CheckStatus.warn ∧
       (checkTitle (some t)).recommendation ≠ none) ∧
    (∀ s : String, s ≠ "" → s.length < 70 ∨ s.length > 200 →
       (checkDescription (some s)).status = CheckStatus.warn ∧
       (checkDescription (some s)).recommendation ≠ none) ∧
    (∀ w h : Int, ¬(w = 1200 ∧ h = 630) →
       (imageDimsCheck w h).status = CheckStatus.warn ∧
       (imageDimsCheck w h).recommendation ≠ none) ∧
    (∀ k : Int, 480 < k → k ≤ 600 →
       (imageSizeCheck k).status = CheckStatus.warn ∧
       (imageSizeCheck k).recommendation ≠ none) ∧
    (∀ k : Int, 600 < k → (imageSizeCheck k).status = CheckStatus.fail) := by
  refine ⟨?_, ?_, ?_, ?_, ?_⟩
  · intro t ht hlen
    have hf : falsy (some t) = false := by simp [falsy, ht]
    unfold checkTitle
    rw [hf]
    simp only [Bool.false_eq_true, if_false, Option.getD_some]
    split_ifs with h1 h2 h3
    · exact ⟨rfl, by simp⟩
    · exact ⟨rfl, by simp⟩
    all_goals (simp only [titleThresholds] at h1 h2; exfalso; omega)
  · intro s hs hlen
    have hf : falsy (some s) = false := by simp [falsy, hs]
    unfold checkDescription
    rw [hf]
    simp only [Bool.false_eq_true, if_false, Option.getD_some]
    split_ifs with h1 h2 h3
    · exact ⟨rfl, by simp⟩
    · exact ⟨rfl, by simp⟩
    all_goals (simp only [descriptionThresholds] at h1 h2; exfalso; omega)
  · intro w h hne
    unfold imageDimsCheck
    rw [if_neg hne]
    split_ifs with h2
    · exact ⟨rfl, by simp⟩
    · exact ⟨rfl, by simp⟩
  · intro k h1 h2
    unfold imageSizeCheck
    rw [if_neg (by omega), if_pos h1]
    exact ⟨rfl, by simp⟩
  · intro k h1
    unfold imageSizeCheck
    rw [if_pos h1]

/-- Witness for C5 (amended) at concrete inputs. -/
theorem out_of_range_statuses_witness :
    ((checkTitle (some "Tiny")).status = CheckStatus.warn ∧
     (checkTitle (some "Tiny")).recommendation ≠ none) ∧
    ((imageSizeCheck 601).status = CheckStatus.fail) :=
  ⟨out_of_range_statuses.1 "Tiny" (by decide) (Or.inl (by decide)),
   out_of_range_statuses.2.2.2.2 601 (by norm_num)⟩

/-- Counterexample to C5 as stated: a present image whose size 602 KB is
    out of range produces an `og:image size` check with status `fail`,
    not `warn`. -/
theorem image_size_fail_counterexample :
    imageSizeCheck (sizeKBOf bigBody.size) ∈
      checkImage (some "https://example.com/og.png") (some "https://example.com/")
        (fun _ => ("https:", "example.com")) (fun _ => Except.ok bigImageResp) ∧
    sizeKBOf bigBody.size = 602 ∧
    600 < sizeKBOf bigBody.size ∧
    (imageSizeCheck (sizeKBOf bigBody.size)).status = CheckStatus.fail := by
  have hsz : sizeKBOf bigBody.size = 602 := by
    norm_num [sizeKBOf, bigBody, round_eq]
  have hcs : checkImage (some "https://example.com/og.png") (some "https://example.com/")
      (fun _ => ("https:", "example.com")) (fun _ => Except.ok bigImageResp) =
      [⟨"og:image URL", .pass, "Image URL is absolute",
         some (.str "https://example.com/og.png"), none⟩,
       ⟨"og:image accessible", .pass, "Image is accessible", none, none⟩,
       ⟨"og:image format", .pass, "Valid format (image/png)", none, none⟩,
       imageSizeCheck (sizeKBOf bigBody.size)] := rfl
  refine ⟨?_, hsz, by rw [hsz]; norm_num, ?_⟩
  · rw [hcs]
    simp
  · rw [hsz]
    simp only [imageSizeCheck]
    rw [if_pos (by norm_num)]

/-- C9: the meta-tag extractor returns the first match among the four
    attribute-order-tolerant patterns (property-before-content,
    content-before-property, and the same two with `name=`), matched
    case-insensitively; both attribute orders of
    `<meta property="og:title" content="Hello">`, and the upper-case variant,
    yield title `"Hello"`. -/
theorem meta_extractor_first_of_four :
    (∀ (html prop r : String),
       scanFor (patAttrContent "property=".toList prop.toList) html.toList = some r →
       getMetaContent html prop = some r) ∧
    (∀ (html prop r : String),
       scanFor (patAttrContent "property=".toList prop.toList) html.toList = none →
       scanFor (patContentAttr "property=".toList prop.toList) html.toList = some r →
       getMetaContent html prop = some r) ∧
    (∀ (html prop r : String),
       scanFor (patAttrContent "property=".toList prop.toList) html.toList = none →
       scanFor (patContentAttr "property=".toList prop.toList) html.toList = none →
       scanFor (patAttrContent "name=".toList prop.toList) html.toList = some r →
       getMetaContent html prop = some r) ∧
    (∀ (html prop : String),
       scanFor (patAttrContent "property=".toList prop.toList) html.toList = none →
       scanFor (patContentAttr "property=".toList prop.toList) html.toList = none →
       scanFor (patAttrContent "name=".toList prop.toList) html.toList = none →
       getMetaContent html prop =
         scanFor (patContentAttr "name=".toList prop.toList) html.toList) ∧
    (parseOGTags helloPropFirst).title = some "Hello" ∧
    (parseOGTags helloContentFirst).title = some "Hello" ∧
    (parseOGTags helloUpperCase).title = some "Hello" := by
  refine ⟨?_, ?_, ?_, ?_, by decide, by decide, by decide⟩
  · intro html prop r h1
    simp only [getMetaContent]
    rw [h1]
  · intro html prop r h1 h2
    simp only [getMetaContent]
    rw [h1, h2]
  · intro html prop r h1 h2 h3
    simp only [getMetaContent]
    rw [h1, h2, h3]
  · intro html prop h1 h2 h3
    simp only [getMetaContent]
    rw [h1, h2, h3]

/-- Witness for C9: the first pattern matching concretely. -/
theorem meta_extractor_first_of_four_witness :
    getMetaContent helloPropFirst "og:title" = some "Hello" :=
  meta_extractor_first_of_four.1 helloPropFirst "og:title" "Hello" (by decide)

/-- C4: when the page fetch fails (network error or non-2xx status),
    `validateOG` returns score 0 with exactly one check, `"URL Accessible"`
    with status `fail` — no title, description, image, og:url or twitter:card
    checks. -/
theorem validateOG_fetch_failure (targetUrl msg : String)
    (parse : String → String × String) (imgFetch : String → Except String ImageResp) :
    validateOG targetUrl (Except.error msg) parse imgFetch =
      ⟨targetUrl, some 0, 100,
       [⟨"URL Accessible", CheckStatus.fail, "Could not fetch URL: " ++ msg, none, none⟩]⟩ :=
  rfl

/-- C10: an `og:title` (or `og:description`) meta tag with empty-string
    content extracts as the empty string, but the title (description) check
    then yields exactly the same `fail` "Missing" check as when the tag is
    absent; the resulting `ValidationResult` (checks and score) of a page
    whose tags are empty equals that of a page with no tags at all. -/
theorem empty_tag_equals_missing :
    (parseOGTags emptyTagsHtml).title = some "" ∧
    (parseOGTags emptyTagsHtml).description = some "" ∧
    (parseOGTags noTagsHtml).title = none ∧
    (parseOGTags noTagsHtml).description = none ∧
    checkTitle (some "") = checkTitle none ∧
    checkDescription (some "") = checkDescription none ∧
    (∀ (u : String) (parse : String → String × String)
       (f : String → Except String ImageResp),
       validateOG u (Except.ok emptyTagsHtml) parse f =
         validateOG u (Except.ok noTagsHtml) parse f) := by
  refine ⟨by decide, by decide, by decide, by decide, rfl, rfl, ?_⟩
  intro u parse f
  rfl

theorem nanAdd_some_zero (a : Option ℚ) : nanAdd (some 0) a = a := by
  cases a <;> simp [nanAdd]

theorem nanAdd_assoc (a b c : Option ℚ) :
    nanAdd (nanAdd a b) c = nanAdd a (nanAdd b c) := by
  cases a <;> cases b <;> cases c <;> simp [nanAdd, add_assoc]

theorem foldl_nanAdd_eq (l : List (Option ℚ)) :
    ∀ a : Option ℚ, l.foldl nanAdd a = nanAdd a (nanSum l) := by
  induction l with
  | nil =>
    intro a
    cases a <;> simp [nanSum, nanAdd]
  | cons c t ih =>
    intro a
    simp only [List.foldl_cons, nanSum, List.foldr_cons]
    rw [ih, ← nanAdd_assoc]
    rfl

theorem score_foldl_eq_nanSum (rs : List AuditResult) :
    rs.foldl (fun sum r => nanAdd sum (scoreQ r)) (some 0) = nanSum (rs.map scoreQ) := by
  rw [← List.foldl_map scoreQ nanAdd rs (some 0), foldl_nanAdd_eq, nanAdd_some_zero]

theorem addPath_averageScore (inv : OGInventory) (p : String) :
    (addPath inv p).averageScore = inv.averageScore := by
  simp only [addPath]
  split <;> rfl

theorem foldl_addPath_averageScore (ps : List String) :
    ∀ inv : OGInventory, (ps.foldl addPath inv).averageScore = inv.averageScore := by
  induction ps with
  | nil => intro inv; rfl
  | cons p t ih =>
    intro inv
    simp only [List.foldl_cons]
    rw [ih, addPath_averageScore]

/-- C6 (amended): an inventory produced by a full audit run satisfies both
    `totalPages == len(pages)` and `averageScore == round(mean of the page
    scores)` (empty input guarded by the caller); an inventory written by the
    manual path-registration (`og init`) satisfies `totalPages == len(pages)`
    but keeps the loaded inventory's `averageScore` (0 for a fresh one)
    unchanged, without recomputing the mean. -/
theorem inventory_invariants :
    (∀ (b t : String) (rs : List AuditResult), rs ≠ [] →
       (auditInventory b t rs).totalPages = (auditInventory b t rs).pages.length ∧
       (auditInventory b t rs).averageScore = meanScore (auditInventory b t rs).pages) ∧
    (∀ (ex : Option OGInventory) (ps : List String) (now : String),
       (initInventory ex ps now).totalPages = (initInventory ex ps now).pages.length ∧
       (initInventory ex ps now).averageScore =
         (match ex with
          | some i => i.averageScore
          | none => some 0)) := by
  constructor
  · intro b t rs _
    refine ⟨rfl, ?_⟩
    unfold auditInventory meanScore
    simp only
    rw [score_foldl_eq_nanSum]
  · intro ex ps now
    refine ⟨rfl, ?_⟩
    unfold initInventory
    simp only
    rw [foldl_addPath_averageScore]
    cases ex <;> rfl

/-- Witness for C6 (amended) at concrete inputs. -/
theorem inventory_invariants_witness :
    ((auditInventory "https://x.com" "t0"
        [{ url := "https://x.com/", path := "/", score := some 80, issues := [] }]).totalPages =
      (auditInventory "https://x.com" "t0"
        [{ url := "https://x.com/", path := "/", score := some 80, issues := [] }]).pages.length ∧
     (auditInventory "https://x.com" "t0"
        [{ url := "https://x.com/", path := "/", score := some 80, issues := [] }]).averageScore =
      meanScore (auditInventory "https://x.com" "t0"
        [{ url := "https://x.com/", path := "/", score := some 80, issues := [] }]).pages) :=
  inventory_invariants.1 "https://x.com" "t0"
    [{ url := "https://x.com/", path := "/", score := some 80, issues := [] }] (by simp)

/-- Counterexample to C6 as stated: extending the audited inventory with a
    new path through `og init` writes `averageScore` 100 while the rounded
    mean of the page scores is `round((100+0)/2) = 50`. -/
theorem init_breaks_average_invariant :
    (initInventory (some auditedOnePage) ["/x"] "t1").averageScore ≠
      meanScore (initInventory (some auditedOnePage) ["/x"] "t1").pages := by
  have h1 : (initInventory (some auditedOnePage) ["/x"] "t1").averageScore = some 100 := rfl
  have h2 : (initInventory (some auditedOnePage) ["/x"] "t1").pages =
      [{ url := "local:///", path := "/", score := some 100, issues := [] },
       { url := "local:///x", path := "/x", score := some 0, issues := ["Not audited yet"] }] :=
    rfl
  rw [h1, h2]
  have h3 : meanScore
      [{ url := "local:///", path := "/", score := some 100, issues := [] },
       { url := "local:///x", path := "/x", score := some 0, issues := ["Not audited yet"] }] =
      some 50 := by
    simp only [meanScore, nanSum, scoreQ, List.map_cons, List.map_nil, List.foldr_cons,
      List.foldr_nil, nanAdd, nanDiv, List.length_cons, List.length_nil, Option.map_some']
    norm_num [round_eq]
  rw [h3]
  simp

/-- C8: if validating one page throws, the auditor records for that page the
    degenerate `AuditResult` with score 0 and issues `["Failed to fetch"]`
    and continues: the surrounding pages' results are exactly those of
    auditing them alone. -/
theorem audit_survives_page_throw (origin : String) (pathnameOf : String → String)
    (validate : String → Except String ValidationResult) (ps1 ps2 : List String)
    (p e : String) (h : validate (fullUrlOf origin p) = Except.error e) :
    auditPages origin pathnameOf validate (ps1 ++ p :: ps2) =
      auditPages origin pathnameOf validate ps1 ++
      ({ url := fullUrlOf origin p, path := pathnameOf (fullUrlOf origin p), score := some 0,
         issues := ["Failed to fetch"] } : AuditResult) ::
      auditPages origin pathnameOf validate ps2 := by
  have hp : auditPage origin pathnameOf validate p =
      { url := fullUrlOf origin p, path := pathnameOf (fullUrlOf origin p), score := some 0,
        issues := ["Failed to fetch"] } := by
    simp only [auditPage]
    rw [h]
  unfold auditPages
  rw [List.map_append, List.map_cons, hp]

/-- Witness for C8 at concrete inputs. -/
theorem audit_survives_page_throw_witness :
    auditPages "https://s.com" (fun _ => "/x") (fun _ => Except.error "boom") (["/a"] ++ "/x" :: ["/b"]) =
      auditPages "https://s.com" (fun _ => "/x") (fun _ => Except.error "boom") ["/a"] ++
      ({ url := fullUrlOf "https://s.com" "/x", path := (fun (_ : String) => "/x") (fullUrlOf "https://s.com" "/x"),
         score := some 0, issues := ["Failed to fetch"] } : AuditResult) ::
      auditPages "https://s.com" (fun _ => "/x") (fun _ => Except.error "boom") ["/b"] :=
  audit_survives_page_throw "https://s.com" (fun _ => "/x") (fun _ => Except.error "boom")
    ["/a"] ["/b"] "/x" "boom" rfl

theorem tryLocations_cons (origin : String) (fetch : String → Option String)
    (loc : String) (rest : List String) :
    tryLocations origin fetch (loc :: rest) =
      match fetch (origin ++ loc) with
      | some xml => parseSitemap xml origin
      | none => tryLocations origin fetch rest := rfl

/-- C7: sitemap discovery fetches robots.txt first and, when a `Sitemap:`
    directive is present whose URL the platform parser resolves, prepends
    that sitemap's path to the three default candidates (a directive whose
    URL fails to parse is swallowed by the surrounding catch, leaving the
    defaults); candidates are tried in order, the first HTTP success is
    parsed and returned with no further candidates tried, and the result is
    empty when no candidate succeeds. -/
theorem sitemap_discovery_order :
    (∀ (origin : String) (fetch : String → Option String)
       (pathnameOf : String → String → Option String) (robotsTxt m p : String),
       fetch (origin ++ "/robots.txt") = some robotsTxt →
       robotsSitemapDirective robotsTxt = some m →
       pathnameOf (trimStr m) origin = some p →
       findSitemap origin fetch pathnameOf =
         tryLocations origin fetch (p :: defaultSitemapLocations)) ∧
    (∀ (origin : String) (fetch : String → Option String)
       (pathnameOf : String → String → Option String) (robotsTxt m : String),
       fetch (origin ++ "/robots.txt") = some robotsTxt →
       robotsSitemapDirective robotsTxt = some m →
       pathnameOf (trimStr m) origin = none →
       findSitemap origin fetch pathnameOf =
         tryLocations origin fetch defaultSitemapLocations) ∧
    (∀ (origin : String) (fetch : String → Option String)
       (pathnameOf : String → String → Option String) (robotsTxt : String),
       fetch (origin ++ "/robots.txt") = some robotsTxt →
       robotsSitemapDirective robotsTxt = none →
       findSitemap origin fetch pathnameOf =
         tryLocations origin fetch defaultSitemapLocations) ∧
    (∀ (origin : String) (fetch : String → Option String)
       (pathnameOf : String → String → Option String),
       fetch (origin ++ "/robots.txt") = none →
       findSitemap origin fetch pathnameOf =
         tryLocations origin fetch defaultSitemapLocations) ∧
    (∀ (origin : String) (fetch : String → Option String) (loc : String)
       (rest : List String) (xml : String),
       fetch (origin ++ loc) = some xml →
       tryLocations origin fetch (loc :: rest) = parseSitemap xml origin) ∧
    (∀ (origin : String) (fetch : String → Option String) (loc : String)
       (rest : List String),
       fetch (origin ++ loc) = none →
       tryLocations origin fetch (loc :: rest) = tryLocations origin fetch rest) ∧
    (∀ (origin : String) (fetch : String → Option String),
       tryLocations origin fetch [] = []) := by
  refine ⟨?_, ?_, ?_, ?_, ?_, ?_, fun _ _ => rfl⟩
  · intro origin fetch pathnameOf robotsTxt m p h1 h2 h3
    unfold findSitemap sitemapCandidates
    rw [h1]
    dsimp only
    rw [h2]
    dsimp only
    rw [h3]
  · intro origin fetch pathnameOf robotsTxt m h1 h2 h3
    unfold findSitemap sitemapCandidates
    rw [h1]
    dsimp only
    rw [h2]
    dsimp only
    rw [h3]
  · intro origin fetch pathnameOf robotsTxt h1 h2
    unfold findSitemap sitemapCandidates
    rw [h1]
    dsimp only
    rw [h2]
  · intro origin fetch pathnameOf h1
    unfold findSitemap sitemapCandidates
    rw [h1]
  · intro origin fetch loc rest xml h
    rw [tryLocations_cons, h]
  · intro origin fetch loc rest h
    rw [tryLocations_cons, h]

/-- Witness for C7: the robots.txt directive's sitemap is tried before the
    default `/sitemap.xml` (which would also succeed here) and its parse is
    returned. -/
theorem sitemap_discovery_order_witness :
    findSitemap "https://x.com" demoFetch demoPathname =
      parseSitemap "<url><loc>https://x.com/a</loc></url>" "https://x.com" := by
  rw [sitemap_discovery_order.1 "https://x.com" demoFetch demoPathname demoRobots
      "https://x.com/custom.xml" "/custom.xml" (by decide) (by decide) (by decide)]
  exact sitemap_discovery_order.2.2.2.2.1 "https://x.com" demoFetch "/custom.xml"
    defaultSitemapLocations "<url><loc>https://x.com/a</loc></url>" (by decide)

end OG
